import Mathlib

/-!
Shallow embedding of `src/alaska/predict_from_model.py` (the decode-and-score
pipeline of the alaska mnemonic labeller) and verification of its
specification.

Modelling conventions:
* Python token indices are `Nat`; Python floats carrying log-probabilities are
  modelled as `ℚ`.
* The external collaborators (`model.beam_search` and `format_tokens` from
  `alaska.utils`, the dataset generator) are parameters of the embedding: the
  source file only calls them, so the theorems are stated for every possible
  behaviour of these collaborators.
* Python runtime failures (AssertionError, IndexError, ValueError from
  `math.log`, NameError on an unbound local) are an explicit `PyError` value
  in an `Except` result.
* `math.log(x, 10)` is modelled symbolically: on a positive argument it
  returns the abstract value `Score.log10 x`; on a non-positive argument it
  fails with a ValueError (Python's "math domain error"), exactly as the
  Python primitive does.
* Model invocations are counted: each embedded evaluator returns, next to its
  `Except` result, the number of times `model.beam_search` was reached.
-/

namespace Alaska

/-- The base vocabulary: an index-addressable list of tokens plus the reserved
end-of-sequence index (`vocab.EOS` in the source). -/
structure Vocab where
  tokens : List String
  EOS : Nat
deriving DecidableEq

/-- The per-batch out-of-vocabulary dictionary: `index2word` maps
`(example-index-within-batch, extended-vocabulary-index)` to a surface word. -/
structure OOVDict where
  index2word : List ((Nat × Nat) × String)
deriving DecidableEq

/-- One beam-search hypothesis as consumed by `eval_bs_batch`: the produced
token indices and the length-normalized cumulative log-probability. -/
structure Hypothesis where
  tokens : List Nat
  avg_log_prob : ℚ
deriving DecidableEq

/-- One dataset example; only its source token list `src` is read by the
code under verification. -/
structure Example where
  src : List String
deriving DecidableEq

/-- A batch as consumed by `eval_bs_batch`: the examples, an opaque encoded
input tensor (identified by a `Nat` tag), the input lengths, the extended
vocabulary size and the OOV dictionary. -/
structure Batch where
  examples : List Example
  input_tensor : Nat
  input_lengths : List Nat
  ext_vocab_size : Nat
  oov_dict : OOVDict
deriving DecidableEq

/-- Python runtime failures that the embedded code can raise. -/
inductive PyError where
  | assertionError : PyError
  | indexError : PyError
  | valueError : PyError
  | nameError : String → PyError
deriving DecidableEq

/-- The probability-like score produced by `math.log(x, 10)`, kept symbolic:
`Score.log10 x` stands for the real number log10(x) with `x > 0`. -/
inductive Score where
  | log10 : ℚ → Score
deriving DecidableEq

/-- `math.log(x, 10)`: defined for `x > 0`, raises ValueError ("math domain
error") otherwise, exactly like the Python primitive. -/
def mathLog10 (x : ℚ) : Except PyError Score :=
  if 0 < x then .ok (.log10 x) else .error .valueError

/-- Helper for `pySplit`: walk the characters, accumulating the current
(reversed) word, emitting it at each whitespace boundary. -/
def splitWsAux : List Char → List Char → List String
  | [], acc => if acc.isEmpty then [] else [String.mk acc.reverse]
  | c :: rest, acc =>
    if c.isWhitespace then
      if acc.isEmpty then splitWsAux rest []
      else String.mk acc.reverse :: splitWsAux rest []
    else splitWsAux rest (c :: acc)

/-- Python's `str.split()` with no argument: split on runs of whitespace,
dropping empty pieces (no leading/trailing empty words). -/
def pySplit (s : String) : List String :=
  splitWsAux s.data []

/-- Resolution of one token index for example `i` of the batch, from the body
of the loop in `decode_batch_output` (lines 51-54): indices beyond the base
vocabulary go through the OOV dictionary with `"<UNK>"` as default, others
index the base vocabulary. -/
def resolveToken (vocab : Vocab) (oov : OOVDict) (i : Nat) (w : Nat) : String :=
  if vocab.tokens.length ≤ w then
    ((oov.index2word.lookup (i, w)).getD "<UNK>")
  else
    vocab.tokens.getD w ""

/-- The inner loop of `decode_batch_output` for one example `i`: convert each
index to a string, stopping after (and including) the first occurrence of the
end-of-sequence index. -/
def decodeDoc (vocab : Vocab) (oov : OOVDict) (i : Nat) : List Nat → List String
  | [] => []
  | w :: rest =>
    let word := resolveToken vocab oov i w
    if w = vocab.EOS then [word] else word :: decodeDoc vocab oov i rest

/-- `decode_batch_output` on the already-list-shaped input (the
`isinstance(decoded_tokens, list)` branch; the tensor branch only reshapes a
batch-major grid to the same list-of-lists form first). -/
def decodeBatchOutput (decodedTokens : List (List Nat)) (vocab : Vocab)
    (oov : OOVDict) : List (List String) :=
  decodedTokens.enum.map (fun p => decodeDoc vocab oov p.1 p.2)

/-- The signature of the external `model.beam_search` collaborator:
encoded input, optional input lengths, extended vocabulary size, beam size,
`min_out_len`, `max_out_len`, `len_in_words` → ranked hypotheses. -/
def BeamSearchFn : Type :=
  Nat → Option (List Nat) → Nat → Nat → Nat → Option Nat → Bool → List Hypothesis

/-- The hypotheses `eval_bs_batch` obtains from the model for a batch
(lines 94-102: the call to `model.beam_search`). -/
def batchHypotheses (bs : BeamSearchFn) (batch : Batch) (packSeq : Bool)
    (beamSize minOutLen : Nat) (maxOutLen : Option Nat) (lenInWords : Bool) :
    List Hypothesis :=
  bs batch.input_tensor (if packSeq then some batch.input_lengths else none)
    batch.ext_vocab_size beamSize minOutLen maxOutLen lenInWords

/-- The normal return value of `eval_bs_batch`: the tuple
`(predicted, mnem, probability)` of line 117 (`predicted` is `none` when the
Python value is `None`). -/
structure EvalOut where
  predicted : Option String
  mnem : String
  probability : Score
deriving DecidableEq

/-- Lines 103-107 of `eval_bs_batch`: pick the token sequences to decode and,
in the `best_only` branch, the (optional) probability local.  `hypotheses[0]`
raises an IndexError on an empty hypothesis list; with `best_only` false the
local `probability` stays unbound (`none`). -/
def selectToDecode : Bool → List Hypothesis →
    Except PyError (List (List Nat) × Option Score)
  | true, [] => .error .indexError
  | true, h0 :: _ =>
    (match mathLog10 (-h0.avg_log_prob) with
     | .error e => .error e
     | .ok p => .ok ([h0.tokens], some p))
  | false, hypotheses => .ok (hypotheses.map (fun h => h.tokens), none)

/-- Lines 109-114 of `eval_bs_batch`: with `details`, the predicted label is
the first two whitespace-separated tokens of the detokenized
`decoded_batch[0]` joined by one space (IndexError when the batch is empty or
fewer than two tokens come out); otherwise the local `predicted` is `None`. -/
def computePredicted : Bool → (List String → String) → List (List String) →
    Except PyError (Option String)
  | true, _, [] => .error .indexError
  | true, ft, d0 :: _ =>
    (match pySplit (ft d0) with
     | t0 :: t1 :: _ => .ok (some (t0 ++ " " ++ t1))
     | _ => .error .indexError)
  | false, _, _ => .ok none

/-- Lines 115-116 of `eval_bs_batch`: with `details`, the mnemonic is the
last whitespace-separated token of the detokenized source of the (single)
example (IndexError when the split is empty); without `details` the local
`mnem` stays unbound (`none`). -/
def computeMnem : Bool → (List String → String) → Batch →
    Except PyError (Option String)
  | true, ft, batch =>
    (match (pySplit (ft (batch.examples.headD ⟨[]⟩).src)).getLast? with
     | some m => .ok (some m)
     | none => .error .indexError)
  | false, _, _ => .ok none

/-- Line 117 of `eval_bs_batch`: `return predicted, mnem, probability`.
Python evaluates the tuple left to right, so an unbound `mnem` raises its
NameError before an unbound `probability` does. -/
def returnTriple : Option String → Option String → Option Score →
    Except PyError EvalOut
  | _, none, _ => .error (.nameError "mnem")
  | _, some _, none => .error (.nameError "probability")
  | predictedOpt, some m, some p => .ok ⟨predictedOpt, m, p⟩

/-- The tail of `eval_bs_batch` after the beam-search call (lines 103-117),
with `ft` standing for the external `format_tokens` collaborator.  Local
variables that Python leaves unbound on some paths (`predicted`, `mnem`,
`probability`) are `Option`s, and reading an unbound one at the `return`
statement raises a NameError, as in Python. -/
def evalBsBatchAfterSearch (ft : List String → String) (batch : Batch)
    (vocab : Vocab) (hypotheses : List Hypothesis) (bestOnly details : Bool) :
    Except PyError EvalOut :=
  (selectToDecode bestOnly hypotheses).bind fun s =>
    (computePredicted details ft
        (decodeBatchOutput s.1 vocab batch.oov_dict)).bind fun predictedOpt =>
      (computeMnem details ft batch).bind fun mnemOpt =>
        returnTriple predictedOpt mnemOpt s.2

/-- `eval_bs_batch` (lines 62-117): asserts the batch has exactly one example
(AssertionError — the spec's `InvalidBatchSize` condition — otherwise), calls
`model.beam_search`, then decodes and packages the result.  The second
component counts how many times the model was invoked (0 when the assertion
fails, 1 afterwards). -/
def evalBsBatch (bs : BeamSearchFn) (ft : List String → String) (batch : Batch)
    (vocab : Vocab) (packSeq : Bool) (beamSize minOutLen : Nat)
    (maxOutLen : Option Nat) (lenInWords bestOnly details : Bool) :
    Except PyError EvalOut × Nat :=
  if batch.examples.length = 1 then
    (evalBsBatchAfterSearch ft batch vocab
      (batchHypotheses bs batch packSeq beamSize minOutLen maxOutLen lenInWords)
      bestOnly details, 1)
  else
    (.error .assertionError, 0)

/-- The configuration fields of `Params` read by `eval_bs`.  Two fields are
renamed from the source: `test_sample_frac` is the source's sampling-ratio
field, and `model_path_stem_truthy` is the truthiness of the source's
model-path-prefix string (the code only uses it in a boolean test). -/
structure Params where
  pointer : Bool
  test_sample_frac : ℚ
  pack_seq : Bool
  beam_size : Nat
  min_out_len : Nat
  max_out_len : Option Nat
  out_len_in_words : Bool
  test_save_results : Bool
  model_path_stem_truthy : Bool
deriving DecidableEq

/-- Python's `int(q)` on a rational: truncation toward zero. -/
def pyInt (q : ℚ) : ℤ :=
  q.num.tdiv q.den

/-- The number of loop iterations of `eval_bs` (line 130 plus the semantics of
`range(1, n_samples + 1)`, which is empty when `n_samples ≤ 0`). -/
def nSamples (params : Params) (npairs : Nat) : Nat :=
  (pyInt (params.test_sample_frac * npairs)).toNat

/-- Python dict assignment `d[k] = v`: the new binding shadows any previous
binding of `k`. -/
def dictInsert {α : Type} (d : List (String × α)) (k : String) (v : α) :
    List (String × α) :=
  (k, v) :: d.filter (fun p => p.1 != k)

/-- Per-example aggregation of `eval_bs` (lines 149-151): record the result in
both mappings only when `predicted` is truthy (a non-`None`, non-empty
string). -/
def recordResult (out : List (String × String)) (probOut : List (String × Score))
    (predicted : Option String) (mnem : String) (prob : Score) :
    List (String × String) × List (String × Score) :=
  match predicted with
  | none => (out, probOut)
  | some s =>
    if s = "" then (out, probOut)
    else (dictInsert out mnem s, dictInsert probOut mnem prob)

/-- The loop of `eval_bs` (lines 136-151).  `rfBound` records whether the
local `result_file` was bound (line 132-133); when it is not, building the
`details=result_file is not None` argument raises a NameError before the
model is ever invoked.  When it is bound, `result_file` is an open tarfile
object (never `None`), so `details` is `true`.  The counter accumulates model
invocations. -/
def evalBsLoop (bs : BeamSearchFn) (ft : List String → String)
    (gen : Nat → Batch) (vocab : Vocab) (params : Params) (rfBound : Bool) :
    Nat → Nat → List (String × String) → List (String × Score) → Nat →
    Except PyError (List (String × String) × List (String × Score)) × Nat
  | 0, _, out, probOut, calls => (.ok (out, probOut), calls)
  | n + 1, i, out, probOut, calls =>
    let batch := gen i
    if rfBound then
      match evalBsBatch bs ft batch vocab params.pack_seq params.beam_size
          params.min_out_len params.max_out_len params.out_len_in_words
          true true with
      | (.ok r, c) =>
        let rec1 := recordResult out probOut r.predicted r.mnem r.probability
        evalBsLoop bs ft gen vocab params rfBound n (i + 1) rec1.1 rec1.2
          (calls + c)
      | (.error e, c) => (.error e, calls + c)
    else
      (.error (.nameError "result_file"), calls)

/-- `eval_bs` (lines 120-152).  The dataset generator is the external
collaborator `gen` (the `i`-th `next(test_gen)` yields `gen i`); `npairs` is
`len(test_set.pairs)`.  Returns the two mappings (as association lists whose
head binding is current) and the number of model invocations. -/
def evalBs (bs : BeamSearchFn) (ft : List String → String) (gen : Nat → Batch)
    (vocab : Vocab) (npairs : Nat) (params : Params) :
    Except PyError (List (String × String) × List (String × Score)) × Nat :=
  let rfBound := params.test_save_results && params.model_path_stem_truthy
  evalBsLoop bs ft gen vocab params rfBound (nSamples params npairs) 0 [] [] 0

/-! Concrete test fixtures used to witness the theorems below.  `bsC` is a
beam-search stub dispatching on the opaque input-tensor tag, `ftC` a concrete
detokenizer (join with single spaces), and the two batches share the same
source example (so the same mnemonic). -/

def vocabC : Vocab := ⟨["depth", "in", "feet", "<EOS>"], 3⟩

def ftC : List String → String := fun ts => String.intercalate " " ts

def exC : Example := ⟨["DEPT", "FT"]⟩

def oovC : OOVDict := ⟨[((0, 9), "qz")]⟩

def batchC : Batch := ⟨[exC], 0, [2], 10, oovC⟩

def batchC2 : Batch := ⟨[exC], 1, [2], 10, oovC⟩

def batchBad : Batch := ⟨[exC, exC], 0, [2], 10, oovC⟩

def hypC : Hypothesis := ⟨[0, 1, 3], mkRat (-1) 2⟩

def hypC2 : Hypothesis := ⟨[2, 1, 3], mkRat (-1) 4⟩

def hypZ : Hypothesis := ⟨[0, 1, 3], 0⟩

def bsC : BeamSearchFn := fun t _ _ _ _ _ _ => if t = 0 then [hypC] else [hypC2]

def bsZ : BeamSearchFn := fun _ _ _ _ _ _ _ => [hypZ]

def genC : Nat → Batch := fun i => if i = 0 then batchC else batchC2

def paramsC : Params := ⟨true, 1, true, 4, 1, none, true, true, true⟩

def paramsZero : Params := ⟨true, 0, true, 4, 1, none, true, true, true⟩

def paramsNoSave : Params := ⟨true, 1, true, 4, 1, none, true, false, true⟩

/-! ### Helper lemmas -/

theorem exceptBind_okL {ε α β : Type} (a : α) (f : α → Except ε β) :
    (Except.ok a : Except ε α).bind f = f a := rfl

theorem exceptBind_errL {ε α β : Type} (e : ε) (f : α → Except ε β) :
    (Except.error e : Except ε α).bind f = .error e := rfl

/-- Inversion for `Except.bind` succeeding. -/
theorem exceptBind_ok {ε α β : Type} {x : Except ε α} {f : α → Except ε β}
    {b : β} (h : x.bind f = .ok b) : ∃ a, x = .ok a ∧ f a = .ok b := by
  cases x with
  | error e => exact absurd h (by simp [Except.bind])
  | ok a => exact ⟨a, rfl, h⟩

theorem selectToDecode_true_ok {hypotheses : List Hypothesis}
    {s : List (List Nat) × Option Score}
    (h : selectToDecode true hypotheses = .ok s) :
    ∃ h0 rest, hypotheses = h0 :: rest ∧ 0 < -h0.avg_log_prob ∧
      s = ([h0.tokens], some (.log10 (-h0.avg_log_prob))) := by
  cases hypotheses with
  | nil => simp [selectToDecode] at h
  | cons h0 rest =>
    by_cases hpos : 0 < -h0.avg_log_prob
    · refine ⟨h0, rest, rfl, hpos, ?_⟩
      simp [selectToDecode, mathLog10, hpos] at h
      exact h.symm
    · simp [selectToDecode, mathLog10, hpos] at h

theorem selectToDecode_false (hypotheses : List Hypothesis) :
    selectToDecode false hypotheses
      = .ok (hypotheses.map (fun h => h.tokens), none) := rfl

theorem computePredicted_true_ok {ft : List String → String}
    {decodedBatch : List (List String)} {po : Option String}
    (h : computePredicted true ft decodedBatch = .ok po) :
    ∃ d0 ds t0 t1 ts, decodedBatch = d0 :: ds ∧
      pySplit (ft d0) = t0 :: t1 :: ts ∧ po = some (t0 ++ " " ++ t1) := by
  cases decodedBatch with
  | nil => simp [computePredicted] at h
  | cons d0 ds =>
    rcases hsp : pySplit (ft d0) with _ | ⟨t0, _ | ⟨t1, ts⟩⟩
    · simp [computePredicted, hsp] at h
    · simp [computePredicted, hsp] at h
    · refine ⟨d0, ds, t0, t1, ts, rfl, hsp, ?_⟩
      simp [computePredicted, hsp] at h
      exact h.symm

theorem computeMnem_true_ok {ft : List String → String} {batch : Batch}
    {mo : Option String} (h : computeMnem true ft batch = .ok mo) :
    ∃ m, (pySplit (ft (batch.examples.headD ⟨[]⟩).src)).getLast? = some m ∧
      mo = some m := by
  rcases hlast : (pySplit (ft (batch.examples.headD ⟨[]⟩).src)).getLast? with _ | m
  · simp only [computeMnem] at h
    rw [hlast] at h
    exact absurd h (by simp)
  · refine ⟨m, rfl, ?_⟩
    simp only [computeMnem] at h
    rw [hlast] at h
    exact (Except.ok.inj h).symm

theorem evalBsBatchAfterSearch_ok {ft : List String → String} {batch : Batch}
    {vocab : Vocab} {hypotheses : List Hypothesis} {bestOnly details : Bool}
    {r : EvalOut}
    (h : evalBsBatchAfterSearch ft batch vocab hypotheses bestOnly details = .ok r) :
    bestOnly = true ∧ details = true ∧
    ∃ h0 rest t0 t1 ts m,
      hypotheses = h0 :: rest ∧
      0 < -h0.avg_log_prob ∧
      pySplit (ft (decodeDoc vocab batch.oov_dict 0 h0.tokens)) = t0 :: t1 :: ts ∧
      (pySplit (ft (batch.examples.headD ⟨[]⟩).src)).getLast? = some m ∧
      r = ⟨some (t0 ++ " " ++ t1), m, .log10 (-h0.avg_log_prob)⟩ := by
  cases bestOnly with
  | false =>
    unfold evalBsBatchAfterSearch at h
    simp only [selectToDecode_false, exceptBind_okL] at h
    cases hpo : computePredicted details ft
        (decodeBatchOutput (hypotheses.map (fun hh => hh.tokens)) vocab
          batch.oov_dict) with
    | error e => rw [hpo, exceptBind_errL] at h; exact absurd h (by simp)
    | ok po =>
      rw [hpo, exceptBind_okL] at h
      cases hmo : computeMnem details ft batch with
      | error e => rw [hmo, exceptBind_errL] at h; exact absurd h (by simp)
      | ok mo =>
        rw [hmo, exceptBind_okL] at h
        cases mo with
        | none => exact absurd h (by simp [returnTriple])
        | some m => exact absurd h (by simp [returnTriple])
  | true =>
    unfold evalBsBatchAfterSearch at h
    obtain ⟨s, hs, h2⟩ := exceptBind_ok h
    obtain ⟨h0, rest, hhyp, hpos, hs'⟩ := selectToDecode_true_ok hs
    subst hs'
    obtain ⟨po, hpo, h3⟩ := exceptBind_ok h2
    obtain ⟨mo, hmo, h4⟩ := exceptBind_ok h3
    cases details with
    | false =>
      have hmo' : mo = (none : Option String) := by
        have : (Except.ok mo : Except PyError (Option String)) = .ok none := by
          rw [← hmo]
          rfl
        exact (Except.ok.inj this)
      subst hmo'
      exact absurd h4 (by simp [returnTriple])
    | true =>
      obtain ⟨d0, ds, t0, t1, ts, hdb, hsplit, hpo'⟩ := computePredicted_true_ok hpo
      obtain ⟨m, hlast, hmo'⟩ := computeMnem_true_ok hmo
      subst hpo'
      subst hmo'
      have hdec : decodeBatchOutput [h0.tokens] vocab batch.oov_dict
          = [decodeDoc vocab batch.oov_dict 0 h0.tokens] := rfl
      rw [hdec] at hdb
      have hd0 : d0 = decodeDoc vocab batch.oov_dict 0 h0.tokens := by
        cases hdb
        rfl
      subst hd0
      rw [show returnTriple (some (t0 ++ " " ++ t1)) (some m)
            (some (.log10 (-h0.avg_log_prob)))
          = .ok ⟨some (t0 ++ " " ++ t1), m, .log10 (-h0.avg_log_prob)⟩ from rfl] at h4
      cases h4
      exact ⟨rfl, rfl, h0, rest, t0, t1, ts, m, hhyp, hpos, hsplit, hlast, rfl⟩

/-- `decodeDoc` on a sequence without the end-of-sequence index converts every
token. -/
theorem decodeDoc_no_eos (vocab : Vocab) (oov : OOVDict) (i : Nat) :
    ∀ doc : List Nat, vocab.EOS ∉ doc →
      decodeDoc vocab oov i doc = doc.map (resolveToken vocab oov i)
  | [], _ => rfl
  | w :: rest, h => by
    have hw : ¬(w = vocab.EOS) := fun e => h (e ▸ List.mem_cons_self w rest)
    have hr : vocab.EOS ∉ rest := fun m => h (List.mem_cons_of_mem _ m)
    simp only [decodeDoc, if_neg hw, List.map_cons]
    exact congrArg _ (decodeDoc_no_eos vocab oov i rest hr)

/-- `decodeDoc` truncates at (and includes) the first end-of-sequence
index. -/
theorem decodeDoc_eos (vocab : Vocab) (oov : OOVDict) (i : Nat) :
    ∀ (pre post : List Nat), vocab.EOS ∉ pre →
      decodeDoc vocab oov i (pre ++ vocab.EOS :: post)
        = ((pre ++ vocab.EOS :: post).take (pre.length + 1)).map
            (resolveToken vocab oov i)
  | [], post, _ => by
    simp [decodeDoc]
  | p :: pre, post, h => by
    have hp : ¬(p = vocab.EOS) := fun e => h (e ▸ List.mem_cons_self p pre)
    have hr : vocab.EOS ∉ pre := fun m => h (List.mem_cons_of_mem _ m)
    simp only [List.cons_append, decodeDoc, if_neg hp, List.length_cons,
      List.take_succ_cons, List.map_cons]
    exact congrArg _ (decodeDoc_eos vocab oov i pre post hr)

/-- Positionwise description of `decodeBatchOutput`. -/
theorem decodeBatchOutput_get? (docs : List (List Nat)) (vocab : Vocab)
    (oov : OOVDict) (i : Nat) :
    (decodeBatchOutput docs vocab oov)[i]?
      = (docs[i]?).map (decodeDoc vocab oov i) := by
  simp only [decodeBatchOutput, List.getElem?_map, List.getElem?_enum]
  cases docs[i]? <;> rfl

/-- C3: for every sequence with its first end-of-sequence index at position
`k` (`k = pre.length`), `decode_batch_output` yields exactly the first `k+1`
tokens of that sequence converted to strings; a sequence without the
end-of-sequence index is converted in full. -/
theorem decode_batch_output_truncates_at_eos (vocab : Vocab) (oov : OOVDict)
    (docs : List (List Nat)) (i : Nat) :
    (∀ doc pre post, docs[i]? = some doc → doc = pre ++ vocab.EOS :: post →
      vocab.EOS ∉ pre →
      (decodeBatchOutput docs vocab oov)[i]?
        = some ((doc.take (pre.length + 1)).map (resolveToken vocab oov i))) ∧
    (∀ doc, docs[i]? = some doc → vocab.EOS ∉ doc →
      (decodeBatchOutput docs vocab oov)[i]?
        = some (doc.map (resolveToken vocab oov i))) := by
  constructor
  · intro doc pre post hdoc hsplit hpre
    rw [decodeBatchOutput_get?, hdoc, Option.map_some']
    subst hsplit
    rw [decodeDoc_eos vocab oov i pre post hpre]
  · intro doc hdoc hno
    rw [decodeBatchOutput_get?, hdoc, Option.map_some']
    rw [decodeDoc_no_eos vocab oov i doc hno]

/-- Witness for C3 at concrete inputs: `[0, 1, 3, 2]` truncates after the
end-of-sequence index 3 (position 2), and `[0, 1]` converts in full. -/
theorem decode_batch_output_truncates_at_eos_witness :
    (decodeBatchOutput [[0, 1, 3, 2]] vocabC oovC)[0]?
      = some ((([0, 1, 3, 2] : List Nat).take 3).map (resolveToken vocabC oovC 0)) ∧
    (decodeBatchOutput [[0, 1]] vocabC oovC)[0]?
      = some (([0, 1] : List Nat).map (resolveToken vocabC oovC 0)) :=
  ⟨(decode_batch_output_truncates_at_eos vocabC oovC [[0, 1, 3, 2]] 0).1
      [0, 1, 3, 2] [0, 1] [2] rfl rfl (by decide),
   (decode_batch_output_truncates_at_eos vocabC oovC [[0, 1]] 0).2
      [0, 1] rfl (by decide)⟩

/-- C4: token-index resolution in `decode_batch_output` is total: an index
inside the base vocabulary resolves to the base token (whatever the OOV
dictionary holds), an index beyond it resolves through the OOV dictionary,
falling back to `"<UNK>"` when the pair is absent. -/
theorem resolve_token_total (vocab : Vocab) (oov : OOVDict) (i w : Nat) :
    (∀ h : w < vocab.tokens.length,
      resolveToken vocab oov i w = vocab.tokens.get ⟨w, h⟩) ∧
    (vocab.tokens.length ≤ w → ∀ s, oov.index2word.lookup (i, w) = some s →
      resolveToken vocab oov i w = s) ∧
    (vocab.tokens.length ≤ w → oov.index2word.lookup (i, w) = none →
      resolveToken vocab oov i w = "<UNK>") := by
  refine ⟨?_, ?_, ?_⟩
  · intro h
    rw [resolveToken, if_neg (by omega), List.getD_eq_getElem?_getD,
      List.getElem?_eq_getElem h]
    rfl
  · intro hle s hs
    rw [resolveToken, if_pos hle, hs]
    rfl
  · intro hle hs
    rw [resolveToken, if_pos hle, hs]
    rfl

/-- Witness for C4 at concrete inputs: index 1 is in the base vocabulary,
index 9 hits the OOV entry, index 15 falls back to `"<UNK>"`. -/
theorem resolve_token_total_witness :
    resolveToken vocabC oovC 0 1 = vocabC.tokens.get ⟨1, by decide⟩ ∧
    resolveToken vocabC oovC 0 9 = "qz" ∧
    resolveToken vocabC oovC 0 15 = "<UNK>" :=
  ⟨(resolve_token_total vocabC oovC 0 1).1 (by decide),
   (resolve_token_total vocabC oovC 0 9).2.1 (by decide) "qz" (by decide),
   (resolve_token_total vocabC oovC 0 15).2.2 (by decide) (by decide)⟩

/-- Inversion of a successful `evalBsBatch`: the assert passed, the model was
invoked exactly once and the post-search phase succeeded. -/
theorem evalBsBatch_ok {bs : BeamSearchFn} {ft : List String → String}
    {batch : Batch} {vocab : Vocab} {packSeq : Bool} {beamSize minOutLen : Nat}
    {maxOutLen : Option Nat} {lenInWords bestOnly details : Bool} {r : EvalOut}
    {c : Nat}
    (h : evalBsBatch bs ft batch vocab packSeq beamSize minOutLen maxOutLen
      lenInWords bestOnly details = (.ok r, c)) :
    batch.examples.length = 1 ∧ c = 1 ∧
    evalBsBatchAfterSearch ft batch vocab
      (batchHypotheses bs batch packSeq beamSize minOutLen maxOutLen lenInWords)
      bestOnly details = .ok r := by
  by_cases hl : batch.examples.length = 1
  · unfold evalBsBatch at h
    rw [if_pos hl, Prod.mk.injEq] at h
    exact ⟨hl, h.2.symm, h.1⟩
  · unfold evalBsBatch at h
    rw [if_neg hl, Prod.mk.injEq] at h
    exact absurd h.1 (by simp)

theorem selectToDecode_error {bestOnly : Bool} {hypotheses : List Hypothesis}
    {e : PyError} (h : selectToDecode bestOnly hypotheses = .error e) :
    e = .indexError ∨ e = .valueError := by
  cases bestOnly with
  | false => simp [selectToDecode] at h
  | true =>
    cases hypotheses with
    | nil =>
      rw [selectToDecode] at h
      exact Or.inl (Except.error.inj h).symm
    | cons h0 rest =>
      by_cases hpos : 0 < -h0.avg_log_prob
      · simp [selectToDecode, mathLog10, hpos] at h
      · simp [selectToDecode, mathLog10, hpos] at h
        exact Or.inr h.symm

theorem computePredicted_error {details : Bool} {ft : List String → String}
    {decodedBatch : List (List String)} {e : PyError}
    (h : computePredicted details ft decodedBatch = .error e) :
    e = .indexError := by
  cases details with
  | false => simp [computePredicted] at h
  | true =>
    cases decodedBatch with
    | nil =>
      rw [computePredicted] at h
      exact (Except.error.inj h).symm
    | cons d0 ds =>
      rcases hsp : pySplit (ft d0) with _ | ⟨t0, _ | ⟨t1, ts⟩⟩ <;>
        simp [computePredicted, hsp] at h
      · exact h.symm
      · exact h.symm

theorem computeMnem_error {details : Bool} {ft : List String → String}
    {batch : Batch} {e : PyError}
    (h : computeMnem details ft batch = .error e) : e = .indexError := by
  cases details with
  | false => simp [computeMnem] at h
  | true =>
    rcases hlast : (pySplit (ft (batch.examples.headD ⟨[]⟩).src)).getLast?
        with _ | m
    · simp only [computeMnem] at h
      rw [hlast] at h
      exact (Except.error.inj h).symm
    · simp only [computeMnem] at h
      rw [hlast] at h
      exact absurd h (by simp)

theorem returnTriple_error {po mo : Option String} {pr : Option Score}
    {e : PyError} (h : returnTriple po mo pr = .error e) :
    e = .nameError "mnem" ∨ e = .nameError "probability" := by
  cases mo with
  | none => exact Or.inl (Except.error.inj h).symm
  | some m =>
    cases pr with
    | none => exact Or.inr (Except.error.inj h).symm
    | some p => exact absurd h (by simp [returnTriple])

/-- Classification of the failures of the post-search phase: an
AssertionError can never come out of it. -/
theorem evalBsBatchAfterSearch_error {ft : List String → String}
    {batch : Batch} {vocab : Vocab} {hypotheses : List Hypothesis}
    {bestOnly details : Bool} {e : PyError}
    (h : evalBsBatchAfterSearch ft batch vocab hypotheses bestOnly details
      = .error e) :
    e = .indexError ∨ e = .valueError ∨ e = .nameError "mnem" ∨
      e = .nameError "probability" := by
  unfold evalBsBatchAfterSearch at h
  cases hsel : selectToDecode bestOnly hypotheses with
  | error e1 =>
    rw [hsel, exceptBind_errL] at h
    rcases selectToDecode_error hsel with h1 | h1 <;>
      rw [← (Except.error.inj h)]
    · exact Or.inl h1
    · exact Or.inr (Or.inl h1)
  | ok s =>
    rw [hsel, exceptBind_okL] at h
    cases hpo : computePredicted details ft
        (decodeBatchOutput s.1 vocab batch.oov_dict) with
    | error e2 =>
      rw [hpo, exceptBind_errL] at h
      rw [← (Except.error.inj h)]
      exact Or.inl (computePredicted_error hpo)
    | ok po =>
      rw [hpo, exceptBind_okL] at h
      cases hmo : computeMnem details ft batch with
      | error e3 =>
        rw [hmo, exceptBind_errL] at h
        rw [← (Except.error.inj h)]
        exact Or.inl (computeMnem_error hmo)
      | ok mo =>
        rw [hmo, exceptBind_okL] at h
        rcases returnTriple_error h with h1 | h1
        · exact Or.inr (Or.inr (Or.inl h1))
        · exact Or.inr (Or.inr (Or.inr h1))

/-- C5: `eval_bs_batch` demands exactly one example per batch: any other
batch size fails with the `InvalidBatchSize` condition (the line-91
AssertionError) without invoking the model, and a single-example batch
always passes the check (the model is invoked once, and whatever failure may
follow is never the AssertionError). -/
theorem eval_bs_batch_requires_single_example (bs : BeamSearchFn)
    (ft : List String → String) (batch : Batch) (vocab : Vocab)
    (packSeq : Bool) (beamSize minOutLen : Nat) (maxOutLen : Option Nat)
    (lenInWords bestOnly details : Bool) :
    (batch.examples.length ≠ 1 →
      evalBsBatch bs ft batch vocab packSeq beamSize minOutLen maxOutLen
        lenInWords bestOnly details = (.error .assertionError, 0)) ∧
    (batch.examples.length = 1 →
      evalBsBatch bs ft batch vocab packSeq beamSize minOutLen maxOutLen
          lenInWords bestOnly details
        = (evalBsBatchAfterSearch ft batch vocab
            (batchHypotheses bs batch packSeq beamSize minOutLen maxOutLen
              lenInWords) bestOnly details, 1) ∧
      ∀ e, evalBsBatch bs ft batch vocab packSeq beamSize minOutLen maxOutLen
          lenInWords bestOnly details = (.error e, 1) →
        e = .indexError ∨ e = .valueError ∨ e = .nameError "mnem" ∨
          e = .nameError "probability") := by
  constructor
  · intro hne
    unfold evalBsBatch
    rw [if_neg hne]
  · intro hl
    constructor
    · unfold evalBsBatch
      rw [if_pos hl]
    · intro e he
      unfold evalBsBatch at he
      rw [if_pos hl, Prod.mk.injEq] at he
      exact evalBsBatchAfterSearch_error he.1

/-- Witness for C5: a two-example batch fails the batch-size check with the
model never invoked; the single-example fixture passes it. -/
theorem eval_bs_batch_requires_single_example_witness :
    evalBsBatch bsC ftC batchBad vocabC true 4 1 none true true true
      = (.error .assertionError, 0) ∧
    evalBsBatch bsC ftC batchC vocabC true 4 1 none true true false
      = (evalBsBatchAfterSearch ftC batchC vocabC
          (batchHypotheses bsC batchC true 4 1 none true) true false, 1) ∧
    ((.nameError "mnem" : PyError) = .indexError ∨
      (.nameError "mnem" : PyError) = .valueError ∨
      (.nameError "mnem" : PyError) = .nameError "mnem" ∨
      (.nameError "mnem" : PyError) = .nameError "probability") :=
  ⟨(eval_bs_batch_requires_single_example bsC ftC batchBad vocabC true 4 1
      none true true true).1 (by decide),
   ((eval_bs_batch_requires_single_example bsC ftC batchC vocabC true 4 1
      none true true false).2 rfl).1,
   ((eval_bs_batch_requires_single_example bsC ftC batchC vocabC true 4 1
      none true true false).2 rfl).2 (.nameError "mnem") rfl⟩

/-- C6 (code bug): with `details = false` the source never binds the local
`mnem` yet the `return` statement reads it, so the call fails with a
NameError instead of returning `(None, mnem, probability)`; concrete
evaluation at the fixture input. -/
theorem eval_bs_batch_details_false_name_error :
    evalBsBatch bsC ftC batchC vocabC true 4 1 none true true false
      = (.error (.nameError "mnem"), 1) := rfl

/-- C7 (amended): with `best_only = false` all hypotheses (not only the top
one) are decoded — `decode_batch_output` receives every hypothesis's token
sequence and yields one decoded document per hypothesis — but the call can
never return normally, because the local `probability` is only bound in the
`best_only` branch and the `return` statement reads it. -/
theorem eval_bs_batch_best_only_false_decodes_all (bs : BeamSearchFn)
    (ft : List String → String) (batch : Batch) (vocab : Vocab)
    (packSeq : Bool) (beamSize minOutLen : Nat) (maxOutLen : Option Nat)
    (lenInWords details : Bool) :
    (∃ e c, (evalBsBatch bs ft batch vocab packSeq beamSize minOutLen
        maxOutLen lenInWords false details) = (.error e, c)) ∧
    (decodeBatchOutput
        ((batchHypotheses bs batch packSeq beamSize minOutLen maxOutLen
          lenInWords).map (fun h => h.tokens)) vocab batch.oov_dict).length
      = (batchHypotheses bs batch packSeq beamSize minOutLen maxOutLen
          lenInWords).length := by
  constructor
  · rcases hres : evalBsBatch bs ft batch vocab packSeq beamSize minOutLen
        maxOutLen lenInWords false details with ⟨res, c⟩
    cases res with
    | error e => exact ⟨e, c, rfl⟩
    | ok r =>
      obtain ⟨-, -, hafter⟩ := evalBsBatch_ok hres
      obtain ⟨hb, -⟩ := evalBsBatchAfterSearch_ok hafter
      exact absurd hb (by simp)
  · simp [decodeBatchOutput]

/-- C7 counterexample: at the concrete fixture (`best_only = false`,
`details = true`, a single-example batch, a nonempty hypothesis list) the
call does not return the claimed triple — it raises the NameError on
`probability`. -/
theorem eval_bs_batch_best_only_false_counterexample :
    evalBsBatch bsC ftC batchC vocabC true 4 1 none true false true
      = (.error (.nameError "probability"), 1) ∧
    ∀ r c, evalBsBatch bsC ftC batchC vocabC true 4 1 none true false true
      ≠ ((.ok r : Except PyError EvalOut), c) := by
  constructor
  · rfl
  · intro r c h
    have heq : ((.error (.nameError "probability") : Except PyError EvalOut),
        (1 : Nat)) = ((.ok r : Except PyError EvalOut), c) :=
      (rfl : evalBsBatch bsC ftC batchC vocabC true 4 1 none true false true
        = (.error (.nameError "probability"), 1)).symm.trans h
    simp at heq

/-- C1: whenever `eval_bs_batch` on a batch with `details = true` returns
normally, the batch had exactly one example, the predicted label is the first
two whitespace-separated tokens of the detokenized decoded top hypothesis
joined by a single space, and the mnemonic is the last whitespace-separated
token of the detokenized source sequence of the example. -/
theorem eval_bs_batch_details_fields (bs : BeamSearchFn)
    (ft : List String → String) (batch : Batch) (vocab : Vocab)
    (packSeq : Bool) (beamSize minOutLen : Nat) (maxOutLen : Option Nat)
    (lenInWords bestOnly : Bool) (r : EvalOut) (c : Nat)
    (h : evalBsBatch bs ft batch vocab packSeq beamSize minOutLen maxOutLen
      lenInWords bestOnly true = (.ok r, c)) :
    batch.examples.length = 1 ∧
    ∃ h0 rest,
      batchHypotheses bs batch packSeq beamSize minOutLen maxOutLen lenInWords
        = h0 :: rest ∧
      (∃ t0 t1 ts,
        pySplit (ft (decodeDoc vocab batch.oov_dict 0 h0.tokens))
          = t0 :: t1 :: ts ∧
        r.predicted = some (t0 ++ " " ++ t1)) ∧
      (pySplit (ft (batch.examples.headD ⟨[]⟩).src)).getLast? = some r.mnem := by
  obtain ⟨hlen, -, hafter⟩ := evalBsBatch_ok h
  obtain ⟨-, -, h0, rest, t0, t1, ts, m, hhyp, -, hsplit, hlast, hr⟩ :=
    evalBsBatchAfterSearch_ok hafter
  subst hr
  exact ⟨hlen, h0, rest, hhyp, ⟨t0, t1, ts, hsplit, rfl⟩, hlast⟩

/-- Witness for C1 at the concrete fixture. -/
theorem eval_bs_batch_details_fields_witness :
    batchC.examples.length = 1 ∧
    ∃ h0 rest,
      batchHypotheses bsC batchC true 4 1 none true = h0 :: rest ∧
      (∃ t0 t1 ts,
        pySplit (ftC (decodeDoc vocabC batchC.oov_dict 0 h0.tokens))
          = t0 :: t1 :: ts ∧
        (⟨some "depth in", "FT", .log10 (mkRat 1 2)⟩ : EvalOut).predicted
          = some (t0 ++ " " ++ t1)) ∧
      (pySplit (ftC (batchC.examples.headD ⟨[]⟩).src)).getLast?
        = some (⟨some "depth in", "FT", .log10 (mkRat 1 2)⟩ : EvalOut).mnem :=
  eval_bs_batch_details_fields bsC ftC batchC vocabC true 4 1 none true true
    ⟨some "depth in", "FT", .log10 (mkRat 1 2)⟩ 1 rfl

/-- C2: with `best_only = true`, on a single-example batch whose top
hypothesis has `avg_log_prob < 0`, any normal return carries the probability
score `log10(-avg_log_prob)`; when `avg_log_prob = 0`, `math.log` is called
on zero and the call fails with the ValueError ("math domain error") — the
model having been invoked once. -/
theorem eval_bs_batch_probability_score (bs : BeamSearchFn)
    (ft : List String → String) (batch : Batch) (vocab : Vocab)
    (packSeq : Bool) (beamSize minOutLen : Nat) (maxOutLen : Option Nat)
    (lenInWords details : Bool) (h0 : Hypothesis) (rest : List Hypothesis)
    (hhyp : batchHypotheses bs batch packSeq beamSize minOutLen maxOutLen
      lenInWords = h0 :: rest)
    (hlen : batch.examples.length = 1) :
    (h0.avg_log_prob < 0 → ∀ r c,
      evalBsBatch bs ft batch vocab packSeq beamSize minOutLen maxOutLen
        lenInWords true details = (.ok r, c) →
      r.probability = .log10 (-h0.avg_log_prob)) ∧
    (h0.avg_log_prob = 0 →
      evalBsBatch bs ft batch vocab packSeq beamSize minOutLen maxOutLen
        lenInWords true details = (.error .valueError, 1)) := by
  constructor
  · intro _ r c hok
    obtain ⟨-, -, hafter⟩ := evalBsBatch_ok hok
    obtain ⟨-, -, h0', rest', t0, t1, ts, m, hhyp', -, -, -, hr⟩ :=
      evalBsBatchAfterSearch_ok hafter
    rw [hhyp] at hhyp'
    cases hhyp'
    subst hr
    rfl
  · intro hz
    unfold evalBsBatch
    rw [if_pos hlen, hhyp]
    unfold evalBsBatchAfterSearch
    simp [selectToDecode, mathLog10, hz, exceptBind_errL]

/-- Witness for C2: the negative-score fixture returns `log10(1/2)`; the
zero-score fixture fails with the ValueError. -/
theorem eval_bs_batch_probability_score_witness :
    (⟨some "depth in", "FT", .log10 (mkRat 1 2)⟩ : EvalOut).probability
      = .log10 (-hypC.avg_log_prob) ∧
    evalBsBatch bsZ ftC batchC vocabC true 4 1 none true true true
      = (.error .valueError, 1) :=
  ⟨(eval_bs_batch_probability_score bsC ftC batchC vocabC true 4 1 none true
      true hypC [] rfl rfl).1 (by decide)
      ⟨some "depth in", "FT", .log10 (mkRat 1 2)⟩ 1 rfl,
   (eval_bs_batch_probability_score bsZ ftC batchC vocabC true 4 1 none true
      true hypZ [] rfl rfl).2 rfl⟩

/-- Python's `int()` truncation agrees with the floor on nonnegative
rationals. -/
theorem pyInt_eq_floor {q : ℚ} (hq : 0 ≤ q) : pyInt q = ⌊q⌋ := by
  rw [pyInt, Int.tdiv_eq_ediv (Rat.num_nonneg.mpr hq) (Int.natCast_nonneg q.den),
    Rat.floor_def]

/-- A successful `eval_bs` loop run of `n` iterations performs exactly `n`
model invocations on top of the accumulator. -/
theorem evalBsLoop_ok_calls (bs : BeamSearchFn) (ft : List String → String)
    (gen : Nat → Batch) (vocab : Vocab) (params : Params) (rfBound : Bool) :
    ∀ (n i : Nat) (out : List (String × String))
      (probOut : List (String × Score)) (calls0 : Nat)
      (m : List (String × String) × List (String × Score)) (calls : Nat),
      evalBsLoop bs ft gen vocab params rfBound n i out probOut calls0
        = (.ok m, calls) →
      calls = calls0 + n := by
  intro n
  induction n with
  | zero =>
    intro i out probOut calls0 m calls h
    simp only [evalBsLoop, Prod.mk.injEq] at h
    omega
  | succ n ih =>
    intro i out probOut calls0 m calls h
    cases rfBound with
    | false =>
      simp only [evalBsLoop] at h
      simp at h
    | true =>
      simp only [evalBsLoop] at h
      rcases hbatch : evalBsBatch bs ft (gen i) vocab params.pack_seq
          params.beam_size params.min_out_len params.max_out_len
          params.out_len_in_words true true with ⟨res, c⟩
      rw [hbatch] at h
      cases res with
      | ok r =>
        have hc : c = 1 := (evalBsBatch_ok hbatch).2.1
        have := ih (i + 1) _ _ (calls0 + c) m calls h
        omega
      | error e => simp at h
  
/-- C8: the sample count of `eval_bs` is `int(frac * npairs)`, which for a
nonnegative sampling fraction is `floor(frac * npairs)`; when that count is
not positive the loop body never runs, so both mappings come back empty with
zero model invocations, and in general a successful pass performs exactly
`nSamples` model invocations. -/
theorem eval_bs_sample_count (bs : BeamSearchFn) (ft : List String → String)
    (gen : Nat → Batch) (vocab : Vocab) (npairs : Nat) (params : Params) :
    (0 ≤ params.test_sample_frac →
      nSamples params npairs
        = (⌊params.test_sample_frac * (npairs : ℚ)⌋).toNat) ∧
    (pyInt (params.test_sample_frac * (npairs : ℚ)) ≤ 0 →
      evalBs bs ft gen vocab npairs params = (.ok ([], []), 0)) ∧
    (∀ m calls, evalBs bs ft gen vocab npairs params = (.ok m, calls) →
      calls = nSamples params npairs) := by
  refine ⟨?_, ?_, ?_⟩
  · intro hq
    rw [nSamples, pyInt_eq_floor (mul_nonneg hq (Nat.cast_nonneg npairs))]
  · intro hle
    have h0 : nSamples params npairs = 0 := by
      rw [nSamples]
      exact Int.toNat_eq_zero.mpr hle
    unfold evalBs
    rw [h0]
    rfl
  · intro m calls h
    unfold evalBs at h
    have := evalBsLoop_ok_calls bs ft gen vocab params
      (params.test_save_results && params.model_path_stem_truthy)
      (nSamples params npairs) 0 [] [] 0 m calls h
    omega

theorem nSamples_paramsC_two : nSamples paramsC 2 = 2 := by
  have h : paramsC.test_sample_frac * ((2 : Nat) : ℚ) = ((2 : Nat) : ℚ) :=
    one_mul _
  simp only [nSamples, h]
  decide

theorem nSamples_paramsZero_two : nSamples paramsZero 2 = 0 := by
  have h : paramsZero.test_sample_frac * ((2 : Nat) : ℚ) = 0 := zero_mul _
  simp only [nSamples, h]
  decide

theorem nSamples_paramsNoSave_two : nSamples paramsNoSave 2 = 2 := by
  have h : paramsNoSave.test_sample_frac * ((2 : Nat) : ℚ) = ((2 : Nat) : ℚ) :=
    one_mul _
  simp only [nSamples, h]
  decide

theorem evalBs_paramsC_run :
    evalBs bsC ftC genC vocabC 2 paramsC
      = (.ok ([("FT", "feet in")], [("FT", .log10 (mkRat 1 4))]), 2) := by
  unfold evalBs
  rw [nSamples_paramsC_two]
  rfl

/-- Witness for C8: with the fixture parameters, the sample count matches the
floor; with a zero sampling fraction the result is two empty mappings and no
model call; the successful two-example run performs two model calls. -/
theorem eval_bs_sample_count_witness :
    nSamples paramsC 2 = (⌊paramsC.test_sample_frac * ((2 : Nat) : ℚ)⌋).toNat ∧
    evalBs bsC ftC genC vocabC 2 paramsZero = (.ok ([], []), 0) ∧
    2 = nSamples paramsC 2 :=
  ⟨(eval_bs_sample_count bsC ftC genC vocabC 2 paramsC).1 (by norm_num [paramsC]),
   (eval_bs_sample_count bsC ftC genC vocabC 2 paramsZero).2.1
     (by
       have h : paramsZero.test_sample_frac * ((2 : Nat) : ℚ) = 0 := zero_mul _
       rw [h]
       decide),
   (eval_bs_sample_count bsC ftC genC vocabC 2 paramsC).2.2
     ([("FT", "feet in")], [("FT", .log10 (mkRat 1 4))]) 2 evalBs_paramsC_run⟩

theorem evalBsLoop_succ_ok (bs : BeamSearchFn) (ft : List String → String)
    (gen : Nat → Batch) (vocab : Vocab) (params : Params) (n i : Nat)
    (out : List (String × String)) (probOut : List (String × Score))
    (calls0 : Nat) (r : EvalOut) (c : Nat)
    (hb : evalBsBatch bs ft (gen i) vocab params.pack_seq params.beam_size
      params.min_out_len params.max_out_len params.out_len_in_words true true
      = (.ok r, c)) :
    evalBsLoop bs ft gen vocab params true (n + 1) i out probOut calls0
      = evalBsLoop bs ft gen vocab params true n (i + 1)
          (recordResult out probOut r.predicted r.mnem r.probability).1
          (recordResult out probOut r.predicted r.mnem r.probability).2
          (calls0 + c) := by
  simp only [evalBsLoop]
  rw [hb]
  simp

theorem dictInsert_lookup_self {α : Type} (d : List (String × α)) (k : String)
    (v : α) : (dictInsert d k v).lookup k = some v := by
  simp [dictInsert, List.lookup]

/-- C9: when two consecutively processed examples of `eval_bs` succeed with
the same mnemonic and truthy predicted labels, the second example's label and
score overwrite the first in both mappings; an example with an absent
(`None`) predicted label leaves both mappings unchanged. -/
theorem eval_bs_last_write_wins (bs : BeamSearchFn)
    (ft : List String → String) (gen : Nat → Batch) (vocab : Vocab)
    (npairs : Nat) (params : Params) (r1 r2 : EvalOut) (c1 c2 : Nat)
    (s1 s2 : String)
    (h1 : evalBsBatch bs ft (gen 0) vocab params.pack_seq params.beam_size
      params.min_out_len params.max_out_len params.out_len_in_words true true
      = (.ok r1, c1))
    (h2 : evalBsBatch bs ft (gen 1) vocab params.pack_seq params.beam_size
      params.min_out_len params.max_out_len params.out_len_in_words true true
      = (.ok r2, c2))
    (hp1 : r1.predicted = some s1) (hs1 : s1 ≠ "")
    (hp2 : r2.predicted = some s2) (hs2 : s2 ≠ "")
    (hm : r2.mnem = r1.mnem)
    (hsave : params.test_save_results = true)
    (hstem : params.model_path_stem_truthy = true)
    (hn : nSamples params npairs = 2) :
    ∃ out probOut calls,
      evalBs bs ft gen vocab npairs params = (.ok (out, probOut), calls) ∧
      out.lookup r1.mnem = some s2 ∧
      probOut.lookup r1.mnem = some r2.probability ∧
      ∀ (out0 : List (String × String)) (probOut0 : List (String × Score))
        (mn : String) (pr : Score),
        recordResult out0 probOut0 none mn pr = (out0, probOut0) := by
  have hrec1 : recordResult [] [] r1.predicted r1.mnem r1.probability
      = (dictInsert [] r1.mnem s1, dictInsert [] r1.mnem r1.probability) := by
    rw [hp1]
    simp [recordResult, hs1]
  have hrec2 : recordResult (dictInsert [] r1.mnem s1)
      (dictInsert [] r1.mnem r1.probability) r2.predicted r2.mnem
      r2.probability
      = (dictInsert (dictInsert [] r1.mnem s1) r2.mnem s2,
         dictInsert (dictInsert [] r1.mnem r1.probability) r2.mnem
           r2.probability) := by
    rw [hp2]
    simp [recordResult, hs2]
  refine ⟨dictInsert (dictInsert [] r1.mnem s1) r2.mnem s2,
    dictInsert (dictInsert [] r1.mnem r1.probability) r2.mnem r2.probability,
    0 + c1 + c2, ?_, ?_, ?_, ?_⟩
  · unfold evalBs
    rw [hsave, hstem]
    simp only [Bool.and_self]
    rw [hn, show (2 : Nat) = 1 + 1 from rfl]
    rw [evalBsLoop_succ_ok bs ft gen vocab params 1 0 [] [] 0 r1 c1 h1]
    rw [hrec1]
    rw [show (1 : Nat) = 0 + 1 from rfl]
    rw [evalBsLoop_succ_ok bs ft gen vocab params 0 (0 + 1) _ _ (0 + c1) r2 c2
      (by rw [show (0 + 1 : Nat) = 1 from rfl]; exact h2)]
    rw [hrec2]
    simp only [evalBsLoop]
  · rw [hm, dictInsert_lookup_self]
  · rw [hm, dictInsert_lookup_self]
  · intro out0 probOut0 mn pr
    rfl

/-- Witness for C9 at the concrete fixtures: both examples share the
mnemonic `"FT"`, and the mappings end up holding the second example's label
`"feet in"` and score. -/
theorem eval_bs_last_write_wins_witness :
    ∃ (out : List (String × String)) (probOut : List (String × Score))
      (calls : Nat),
      evalBs bsC ftC genC vocabC 2 paramsC = (.ok (out, probOut), calls) ∧
      out.lookup "FT" = some "feet in" ∧
      probOut.lookup "FT" = some (.log10 (mkRat 1 4)) ∧
      ∀ (out0 : List (String × String)) (probOut0 : List (String × Score))
        (mn : String) (pr : Score),
        recordResult out0 probOut0 none mn pr = (out0, probOut0) :=
  eval_bs_last_write_wins bsC ftC genC vocabC 2 paramsC
    ⟨some "depth in", "FT", .log10 (mkRat 1 2)⟩
    ⟨some "feet in", "FT", .log10 (mkRat 1 4)⟩ 1 1 "depth in" "feet in"
    rfl rfl rfl (by decide) rfl (by decide) rfl rfl rfl nSamples_paramsC_two

/-- C10: whenever `test_save_results` or the model-path prefix is falsy and
at least one sample is to be processed, `eval_bs` fails with the NameError
on the unbound local `result_file` before any model invocation, and the two
mappings are never returned. -/
theorem eval_bs_unbound_result_file (bs : BeamSearchFn)
    (ft : List String → String) (gen : Nat → Batch) (vocab : Vocab)
    (npairs : Nat) (params : Params)
    (hfalsy : params.test_save_results = false ∨
      params.model_path_stem_truthy = false)
    (hn : 1 ≤ nSamples params npairs) :
    evalBs bs ft gen vocab npairs params
      = (.error (.nameError "result_file"), 0) := by
  have hrf : (params.test_save_results && params.model_path_stem_truthy)
      = false := by
    rcases hfalsy with h | h <;> simp [h]
  obtain ⟨k, hk⟩ := Nat.exists_eq_add_of_le hn
  unfold evalBs
  rw [hrf, hk, Nat.add_comm]
  simp [evalBsLoop]

/-- Witness for C10: the fixture configuration with `test_save_results`
false and two samples fails with the `result_file` NameError. -/
theorem eval_bs_unbound_result_file_witness :
    evalBs bsC ftC genC vocabC 2 paramsNoSave
      = (.error (.nameError "result_file"), 0) :=
  eval_bs_unbound_result_file bsC ftC genC vocabC 2 paramsNoSave (Or.inl rfl)
    (by rw [nSamples_paramsNoSave_two]; decide)

end Alaska
